import Mathlib

/-!
Verification of the AHP + TOPSIS decision engine (`utils.py`, `app.py`).

The numeric core is shallowly embedded over an arbitrary linear ordered
field `α`, modelling the exact real arithmetic that the Python/numpy code
performs on IEEE doubles.  Non-finite float values (inf, -inf, NaN) are
modelled explicitly by the type `Fl`, since several code paths test
`np.isfinite` and propagate NaN.  External linear-algebra routines
(`np.linalg.eig`) are modelled as oracle inputs, and `np.sqrt` as a
function parameter `rt`, constrained only by hypotheses that the real
square root satisfies.
-/

/- Batteries marks the rational-number operations `@[irreducible]`, which
blocks `decide`-style evaluation of concrete ℚ instances; the kernel is
unaffected by reducibility attributes, so resetting them to the default
is sound and lets the witnesses below evaluate. -/
attribute [local semireducible] Rat.add Rat.mul Rat.inv Rat.sub

namespace AyberkProje

/-- Model of an IEEE floating-point value as used by the numpy code: a
finite value drawn from a linear ordered field, or one of the non-finite
values `+inf`, `-inf`, `NaN`. -/
inductive Fl (α : Type) where
  | fin (x : α)
  | pinf
  | ninf
  | nan
deriving DecidableEq

variable {α : Type} [LinearOrderedField α]

namespace Fl

/-- Model of `np.isfinite` on a single value. -/
def isfinite : Fl α → Bool
  | fin _ => true
  | _ => false

/-- The elementwise comparison `v <= 0` on floats (NaN compares false). -/
def leZero : Fl α → Bool
  | fin x => decide (x ≤ 0)
  | ninf => true
  | _ => false

/-- The elementwise comparison `v < 0` on floats (NaN compares false). -/
def ltZero : Fl α → Bool
  | fin x => decide (x < 0)
  | ninf => true
  | _ => false

/-- Model of `np.reciprocal` on a single value: `1/x` for finite nonzero `x`; the
reciprocal of an infinity is (signed) zero and the reciprocal of NaN is
NaN.  The caller masks out zero entries. -/
def terslik : Fl α → Fl α
  | fin x => fin (1 / x)
  | pinf => fin 0
  | ninf => fin 0
  | nan => nan

/-- The finite payload of a value (only meaningful after an `isfinite`
check has succeeded). -/
def deger : Fl α → α
  | fin x => x
  | _ => 0

end Fl

/-- Model of `np.isclose a b` with the given `rtol` and `atol`: for finite operands
`|a - b| <= atol + rtol * |b|`; an infinity is close only to an infinity of
the same sign; NaN is close to nothing. -/
def isclose (rtol atol : α) : Fl α → Fl α → Bool
  | Fl.fin a, Fl.fin b => decide (|a - b| ≤ atol + rtol * |b|)
  | Fl.pinf, Fl.pinf => true
  | Fl.ninf, Fl.ninf => true
  | _, _ => false

/-- The default `rtol` of `np.allclose` / `np.isclose` (1e-5). -/
def rtolVarsayilan : α := 1 / 100000

/-- Bounded conjunction of a Boolean predicate over indices `0..n-1`. -/
def natAll (n : Nat) (p : Nat → Bool) : Bool := (List.range n).all p

/-- Bounded disjunction of a Boolean predicate over indices `0..n-1`. -/
def natAny (n : Nat) (p : Nat → Bool) : Bool := (List.range n).any p

/-- Python `dict` lookup, modelled on an association list. -/
def ara {κ β : Type} [DecidableEq κ] (anahtar : κ) : List (κ × β) → Option β
  | [] => none
  | (k, v) :: kalan => if k = anahtar then some v else ara anahtar kalan

/-- Embedding of `utils.py`, `ikili_karsilastirma_matrisi_dogrula` (lines 184-210).
A matrix of shape `satir × sutun` is given by its entry function `m`.
Checks: square shape (fatal, returns immediately); positivity and
finiteness of every cell; unit diagonal within `np.allclose(·, 1,
atol=tolerans)`; reciprocal symmetry `allclose(mᵀ, np.reciprocal(m,
where=m≠0), atol=1e-6)`.  `np.reciprocal` with a `where=` mask and no
`out=` leaves the masked (zero) entries holding uninitialized memory,
modelled by the arbitrary function `g`. -/
def ikili_karsilastirma_matrisi_dogrula (g : Nat → Nat → Fl α) (tolerans : α)
    (satir sutun : Nat) (m : Nat → Nat → Fl α) : List String :=
  if satir ≠ sutun then ["Ikili karsilastirma matrisi kare olmali (n x n)."]
  else
    let n := satir
    let karsilik : Nat → Nat → Fl α := fun i j =>
      if m i j = Fl.fin 0 then g i j else Fl.terslik (m i j)
    let h1 : List String :=
      if !(natAll n fun i => natAll n fun j => (m i j).isfinite)
          || (natAny n fun i => natAny n fun j => (m i j).leZero) then
        ["Tum hucreler pozitif ve sonlu sayilar olmali."]
      else []
    let h2 : List String :=
      if !(natAll n fun i => isclose rtolVarsayilan tolerans (m i i) (Fl.fin 1)) then
        ["Kosegen degerleri 1 olmali."]
      else []
    let h3 : List String :=
      if !(natAll n fun i => natAll n fun j =>
            isclose rtolVarsayilan (1 / 1000000) (m j i) (karsilik i j)) then
        ["Matris karsilikli olmali: a_ij = 1 / a_ji."]
      else []
    h1 ++ h2 ++ h3

/-- Embedding of the inner sanitization step of `app.py`,
`karsiliklilik_uygula` (lines
119-122): an upper-triangle entry that is not finite or is `<= 0` is
replaced by `1.0`, otherwise kept. -/
def gecerliDeger (v : Fl α) : α :=
  match v with
  | Fl.fin x => if x ≤ 0 then 1 else x
  | _ => 1

/-- Embedding of `app.py`, `karsiliklilik_uygula` (lines 103-125): force the diagonal
to 1, sanitize each strict upper-triangle entry, and overwrite each
strict lower-triangle entry with the exact reciprocal of its sanitized
upper-triangle mirror.  Positions outside the `n × n` array do not exist
in the numpy array and are left untouched by the model. -/
def karsiliklilik_uygula (n : Nat) (m : Nat → Nat → Fl α) : Nat → Nat → Fl α :=
  fun i j =>
    if i < n ∧ j < n then
      if i = j then Fl.fin 1
      else if i < j then Fl.fin (gecerliDeger (m i j))
      else Fl.fin (1 / gecerliDeger (m j i))
    else m i j

/-- Embedding of `utils.py`, `AHPHesapSonucu` (lines 37-51).  The weight series is
modelled as the list of (criterion, weight) pairs in index order. -/
structure AHPHesapSonucu (α : Type) where
  agirliklar : List (String × α)
  lambda_maks : α
  ci : α
  cr : α
deriving DecidableEq

/-- Embedding of `utils.py`, `RASTGELE_INDEKS_TABLOSU` (lines 23-34). -/
def RASTGELE_INDEKS_TABLOSU : List (Nat × ℚ) :=
  [(1, 0), (2, 0), (3, 58/100), (4, 90/100), (5, 112/100),
   (6, 124/100), (7, 132/100), (8, 141/100), (9, 145/100), (10, 149/100)]

/-- Embedding of `utils.py`, `ahp_agirliklarini_hesapla` (lines 213-253).  The call
`np.linalg.eig` is an external LAPACK routine; its output relevant to the
code — the real part `lambdaMaks` of the eigenvalue selected by
`argmax(eigenvalues.real)` and the real part `ozvektor` of the matching
eigenvector column — enters the model as oracle parameters.  `g` is the
uninitialized-memory parameter of the validator. -/
def ahp_agirliklarini_hesapla (g : Nat → Nat → Fl α) (satir sutun : Nat)
    (m : Nat → Nat → Fl α) (kriterler : List String)
    (lambdaMaks : α) (ozvektor : List α) : Except String (AHPHesapSonucu α) :=
  if satir ≠ kriterler.length then
    .error "Kriter sayisi ile matris boyutu uyusmuyor."
  else
    let hatalar := ikili_karsilastirma_matrisi_dogrula g (1 / 100000000) satir sutun m
    if hatalar ≠ [] then
      .error ("Gecersiz ikili karsilastirma matrisi: " ++ String.intercalate "; " hatalar)
    else
      let anaOzvektor := ozvektor.map (fun x => |x|)
      let agirliklar := anaOzvektor.map (fun x => x / anaOzvektor.sum)
      let n := satir
      let ci0 : α := if 1 < n then (lambdaMaks - (n : α)) / ((n : α) - 1) else 0
      let ri : ℚ := (ara n RASTGELE_INDEKS_TABLOSU).getD 0
      let cr0 : α := if 0 < ri then ci0 / (ri : α) else 0
      .ok ⟨kriterler.zip agirliklar, lambdaMaks, max ci0 0, max cr0 0⟩

/-- One catalog row (`utils.py` prepared dataset columns relevant to the
decision matrix). -/
structure Arac (α : Type) where
  yakit_tipi : String
  beygir_gucu : α
  kapi_sayisi : Int
  kasa_tipi : String
deriving DecidableEq

/-- A pandas DataFrame holding the TOPSIS decision matrix: column names,
row index labels, and the rows of cells. -/
structure KararMatrisi (α : Type) where
  sutunlar : List String
  satirIdx : List Nat
  veri : List (List (Fl α))
deriving DecidableEq

/-- One cell of a categorical criterion column:
`series.map(puan_tablosu).astype(float).sub(hedef).abs()` — a label
missing from the score map becomes NaN under `pandas.Series.map`, and
NaN propagates through the subtraction and absolute value. -/
def puanMesafe (tablo : List (String × α)) (etiket : String) (hedef : α) : Fl α :=
  match ara etiket tablo with
  | some x => Fl.fin |x - hedef|
  | none => Fl.nan

/-- Embedding of `utils.py`, `kullanici_maliyet_matrisi_olustur` (lines 261-291). -/
def kullanici_maliyet_matrisi_olustur (araclar : List (Nat × Arac α))
    (kullanici_yakit_tipi : String) (kullanici_beygir_gucu : α)
    (kullanici_kapi_sayisi : Int) (kullanici_kasa_tipi : String)
    (yakit_puanlari kasa_puanlari : List (String × α)) :
    Except String (KararMatrisi α) :=
  match ara kullanici_yakit_tipi yakit_puanlari with
  | none => .error ("Bilinmeyen yakit_tipi: " ++ kullanici_yakit_tipi)
  | some yakitHedef =>
    match ara kullanici_kasa_tipi kasa_puanlari with
    | none => .error ("Bilinmeyen kasa_tipi: " ++ kullanici_kasa_tipi)
    | some kasaHedef =>
      .ok { sutunlar := ["yakit_tipi", "beygir_gucu", "kapi_sayisi", "kasa_tipi"],
            satirIdx := araclar.map Prod.fst,
            veri := araclar.map fun ik =>
              [ puanMesafe yakit_puanlari ik.2.yakit_tipi yakitHedef,
                Fl.fin |ik.2.beygir_gucu - kullanici_beygir_gucu|,
                Fl.fin ((|ik.2.kapi_sayisi - kullanici_kapi_sayisi| : Int) : α),
                puanMesafe kasa_puanlari ik.2.kasa_tipi kasaHedef ] }

/-- The list comprehension `[tablo[s] for s in anahtarlar]`: all lookups,
or `none` as soon as a key is missing (Python raises `KeyError` there). -/
def hepsiniBul {β : Type} (anahtarlar : List String) (tablo : List (String × β)) :
    Option (List β) :=
  match anahtarlar with
  | [] => some []
  | s :: kalan =>
    match ara s tablo with
    | none => none
    | some v =>
      match hepsiniBul kalan tablo with
      | none => none
      | some vs => some (v :: vs)

/-- Sum of squares of a list (`np.sum(xs**2)`). -/
def kareToplam (xs : List α) : α := (xs.map fun x => x * x).sum

/-- Column `j` of a row-major matrix. -/
def sutunAl (mat : List (List α)) (j : Nat) : List α :=
  mat.map fun satir => satir.getD j 0

/-- Model of `np.max` over a (nonempty in all uses) list. -/
def listeEnBuyuk : List α → α
  | [] => 0
  | x :: xs => xs.foldl max x

/-- Model of `np.min` over a (nonempty in all uses) list. -/
def listeEnKucuk : List α → α
  | [] => 0
  | x :: xs => xs.foldl min x

/-- The column normalizer of TOPSIS step 1: the Euclidean norm of column
`j`, with a zero norm replaced by 1 (`np.where(payda == 0, 1.0, payda)`).
`rt` models `np.sqrt`. -/
def topsisPayda (rt : α → α) (mat : List (List α)) (j : Nat) : α :=
  let p := rt (kareToplam (sutunAl mat j))
  if p = 0 then 1 else p

/-- TOPSIS steps 1-2: vector-normalize each column and multiply by the
normalized weights `w` (one weight per column). -/
def topsisAgirlikli (rt : α → α) (mat : List (List α)) (w : List α) :
    List (List α) :=
  mat.map fun satir =>
    (List.range w.length).map fun j =>
      satir.getD j 0 / topsisPayda rt mat j * w.getD j 0

/-- TOPSIS step 3, ideal point: per column, max for a benefit (`fayda`)
direction and min for a cost (`maliyet`) direction. -/
def idealNokta (agirlikli : List (List α)) (yonListesi : List String) : List α :=
  (List.range yonListesi.length).map fun j =>
    if yonListesi.getD j "" = "fayda" then listeEnBuyuk (sutunAl agirlikli j)
    else listeEnKucuk (sutunAl agirlikli j)

/-- TOPSIS step 3, anti-ideal point: the mirror of `idealNokta`. -/
def antiNokta (agirlikli : List (List α)) (yonListesi : List String) : List α :=
  (List.range yonListesi.length).map fun j =>
    if yonListesi.getD j "" = "fayda" then listeEnKucuk (sutunAl agirlikli j)
    else listeEnBuyuk (sutunAl agirlikli j)

/-- TOPSIS step 4: per row, the Euclidean distance to a reference point
(`np.sqrt(np.sum((agirlikli - nokta) ** 2, axis=1))`). -/
def uzaklik (rt : α → α) (agirlikli : List (List α)) (nokta : List α) : List α :=
  agirlikli.map fun satir =>
    rt (kareToplam ((List.range nokta.length).map fun j =>
      satir.getD j 0 - nokta.getD j 0))

/-- TOPSIS steps 1-5 on the numeric matrix: the per-row closeness score
`D- / (D+ + D-)`, with `np.where(D+ + D- == 0, 0.0, ...)`. -/
def topsisPuanListesi (rt : α → α) (mat : List (List α)) (w : List α)
    (yonListesi : List String) : List α :=
  let agirlikli := topsisAgirlikli rt mat w
  let dArti := uzaklik rt agirlikli (idealNokta agirlikli yonListesi)
  let dEksi := uzaklik rt agirlikli (antiNokta agirlikli yonListesi)
  (List.range mat.length).map fun i =>
    if dArti.getD i 0 + dEksi.getD i 0 = 0 then 0
    else dEksi.getD i 0 / (dArti.getD i 0 + dEksi.getD i 0)

/-- Embedding of `utils.py`, `topsis_puanlarini_hesapla` (lines 294-360).  Mappings are
association lists; a missing key models the `KeyError` that the Python
dict access raises.  `rt` models `np.sqrt`. -/
def topsis_puanlarini_hesapla (rt : α → α) (karar : KararMatrisi α)
    (agirliklar : List (String × Fl α)) (yonler : List (String × String)) :
    Except String (List (Nat × α)) :=
  if karar.veri = [] ∨ karar.sutunlar = [] then
    .error "Karar matrisi bos olamaz."
  else if !(karar.veri.all fun satir => satir.all Fl.isfinite) then
    .error "Karar matrisinde gecersiz (sonlu olmayan) deger var."
  else
    match hepsiniBul karar.sutunlar agirliklar with
    | none => .error "KeyError: eksik agirlik anahtari."
    | some wfl =>
      if (wfl.any Fl.ltZero) || !(wfl.all Fl.isfinite) then
        .error "Agirliklar pozitif ve sonlu olmalidir."
      else if (wfl.map Fl.deger).sum ≤ 0 then
        .error "Agirliklarin toplami 0 dan buyuk olmali."
      else
        match hepsiniBul karar.sutunlar yonler with
        | none => .error "KeyError: eksik yon anahtari."
        | some yonListesi =>
          if yonListesi.any (fun y => !(y = "fayda" || y = "maliyet")) then
            .error "Yonler fayda veya maliyet olmalidir."
          else
            .ok (karar.satirIdx.zip
              (topsisPuanListesi rt (karar.veri.map (List.map Fl.deger))
                ((wfl.map Fl.deger).map fun x => x / (wfl.map Fl.deger).sum)
                yonListesi))

/-! ### Helper lemmas -/

theorem natAll_eq_true {n : Nat} {p : Nat → Bool} :
    natAll n p = true ↔ ∀ i < n, p i = true := by
  simp [natAll, List.all_eq_true, List.mem_range]

theorem natAll_eq_false {n : Nat} {p : Nat → Bool} :
    natAll n p = false ↔ ∃ i, i < n ∧ p i = false := by
  rw [← Bool.not_eq_true, natAll_eq_true]
  push_neg
  simp [Bool.not_eq_true]

theorem natAny_eq_true {n : Nat} {p : Nat → Bool} :
    natAny n p = true ↔ ∃ i, i < n ∧ p i = true := by
  simp [natAny, List.any_eq_true, List.mem_range]

theorem natAny_eq_false {n : Nat} {p : Nat → Bool} :
    natAny n p = false ↔ ∀ i < n, p i = false := by
  rw [← Bool.not_eq_true, natAny_eq_true]
  push_neg
  simp [Bool.not_eq_true]

theorem gecerliDeger_pos (v : Fl α) : 0 < gecerliDeger v := by
  cases v with
  | fin x =>
    by_cases h : x ≤ 0
    · simp [gecerliDeger, h]
    · simpa [gecerliDeger, h] using lt_of_not_le h
  | pinf => norm_num [gecerliDeger]
  | ninf => norm_num [gecerliDeger]
  | nan => norm_num [gecerliDeger]

theorem gecerliDeger_fin_of_pos {x : α} (h : 0 < x) :
    gecerliDeger (Fl.fin x) = x := by
  simp [gecerliDeger, not_le.mpr h]

theorem karsiliklilik_uygula_kosegen {n i : Nat} (m : Nat → Nat → Fl α)
    (hi : i < n) : karsiliklilik_uygula n m i i = Fl.fin 1 := by
  unfold karsiliklilik_uygula
  simp [hi]

theorem karsiliklilik_uygula_ust {n i j : Nat} (m : Nat → Nat → Fl α)
    (hi : i < n) (hj : j < n) (hlt : i < j) :
    karsiliklilik_uygula n m i j = Fl.fin (gecerliDeger (m i j)) := by
  unfold karsiliklilik_uygula
  simp [hi, hj, hlt, Nat.ne_of_lt hlt]

theorem karsiliklilik_uygula_alt {n i j : Nat} (m : Nat → Nat → Fl α)
    (hi : i < n) (hj : j < n) (hgt : j < i) :
    karsiliklilik_uygula n m i j = Fl.fin (1 / gecerliDeger (m j i)) := by
  unfold karsiliklilik_uygula
  simp [hi, hj, Nat.ne_of_gt hgt, not_lt.mpr (Nat.le_of_lt hgt)]

theorem karsiliklilik_uygula_dis {n i j : Nat} (m : Nat → Nat → Fl α)
    (hb : ¬(i < n ∧ j < n)) : karsiliklilik_uygula n m i j = m i j := by
  unfold karsiliklilik_uygula
  simp [hb]

/-- Payload-and-reciprocal structure of a repaired matrix: inside the
`n × n` block every entry is a positive finite value and the transposed
entry holds its exact reciprocal. -/
theorem karsiliklilik_uygula_yapi (n : Nat) (m : Nat → Nat → Fl α)
    {i j : Nat} (hi : i < n) (hj : j < n) :
    ∃ u : α, 0 < u ∧ karsiliklilik_uygula n m i j = Fl.fin u ∧
      karsiliklilik_uygula n m j i = Fl.fin (1 / u) := by
  rcases lt_trichotomy i j with hlt | heq | hgt
  · exact ⟨gecerliDeger (m i j), gecerliDeger_pos _,
      karsiliklilik_uygula_ust m hi hj hlt,
      karsiliklilik_uygula_alt m hj hi hlt⟩
  · subst heq
    exact ⟨1, one_pos, karsiliklilik_uygula_kosegen m hi, by
      rw [karsiliklilik_uygula_kosegen m hi, one_div_one]⟩
  · refine ⟨1 / gecerliDeger (m j i), one_div_pos.mpr (gecerliDeger_pos _),
      karsiliklilik_uygula_alt m hi hj hgt, ?_⟩
    rw [karsiliklilik_uygula_ust m hj hi hgt, one_div_one_div]

/-! ### Claims C5 and C6: the reciprocity repair routine -/

/-- C6: `karsiliklilik_uygula` is idempotent — applying it twice yields
the same matrix as applying it once.  The diagonal is forced to 1, a
non-finite or non-positive upper-triangle entry is replaced by 1.0, and
each lower-triangle entry is the exact reciprocal of its upper-triangle
mirror, so a second application changes nothing. -/
theorem claim_C6 (n : Nat) (m : Nat → Nat → Fl α) (i j : Nat) :
    karsiliklilik_uygula n (karsiliklilik_uygula n m) i j =
      karsiliklilik_uygula n m i j := by
  by_cases hb : i < n ∧ j < n
  · rcases lt_trichotomy i j with hlt | heq | hgt
    · rw [karsiliklilik_uygula_ust _ hb.1 hb.2 hlt,
        karsiliklilik_uygula_ust m hb.1 hb.2 hlt,
        gecerliDeger_fin_of_pos (gecerliDeger_pos _)]
    · subst heq
      rw [karsiliklilik_uygula_kosegen _ hb.1, karsiliklilik_uygula_kosegen _ hb.1]
    · rw [karsiliklilik_uygula_alt _ hb.1 hb.2 hgt,
        karsiliklilik_uygula_alt m hb.1 hb.2 hgt,
        karsiliklilik_uygula_ust m hb.2 hb.1 hgt,
        gecerliDeger_fin_of_pos (gecerliDeger_pos _)]
  · rw [karsiliklilik_uygula_dis _ hb, karsiliklilik_uygula_dis m hb]

/-- C5: for every square input matrix (any real or non-finite entries),
the repaired matrix passes validation — `ikili_karsilastirma_matrisi_dogrula`
(at its default tolerance, for any uninitialized-memory contents `g`)
returns an empty violation list. -/
theorem claim_C5 (g : Nat → Nat → Fl α) (n : Nat) (m : Nat → Nat → Fl α) :
    ikili_karsilastirma_matrisi_dogrula g (1 / 100000000) n n
      (karsiliklilik_uygula n m) = [] := by
  have hfin : (natAll n fun i => natAll n fun j =>
      (karsiliklilik_uygula n m i j).isfinite) = true := by
    rw [natAll_eq_true]
    intro i hi
    rw [natAll_eq_true]
    intro j hj
    obtain ⟨u, _, he, _⟩ := karsiliklilik_uygula_yapi n m hi hj
    rw [he]
    rfl
  have hle : (natAny n fun i => natAny n fun j =>
      (karsiliklilik_uygula n m i j).leZero) = false := by
    rw [natAny_eq_false]
    intro i hi
    rw [natAny_eq_false]
    intro j hj
    obtain ⟨u, hu, he, _⟩ := karsiliklilik_uygula_yapi n m hi hj
    rw [he]
    simp [Fl.leZero, not_le.mpr hu]
  have hdiag : (natAll n fun i => isclose rtolVarsayilan
      ((100000000 : α)⁻¹) (karsiliklilik_uygula n m i i) (Fl.fin 1)) = true := by
    rw [natAll_eq_true]
    intro i hi
    have : karsiliklilik_uygula n m i i = Fl.fin 1 := by
      unfold karsiliklilik_uygula
      simp [hi]
    rw [this]
    simp only [isclose, decide_eq_true_eq, rtolVarsayilan]
    rw [sub_self, abs_zero]
    positivity
  have hrec : (natAll n fun i => natAll n fun j =>
      isclose rtolVarsayilan ((1000000 : α)⁻¹) (karsiliklilik_uygula n m j i)
        (if karsiliklilik_uygula n m i j = Fl.fin 0 then g i j
         else Fl.terslik (karsiliklilik_uygula n m i j))) = true := by
    rw [natAll_eq_true]
    intro i hi
    rw [natAll_eq_true]
    intro j hj
    obtain ⟨u, hu, he, ht⟩ := karsiliklilik_uygula_yapi n m hi hj
    have hne : karsiliklilik_uygula n m i j ≠ Fl.fin 0 := by
      rw [he]
      simp [ne_of_gt hu]
    rw [if_neg hne, he, ht]
    simp only [Fl.terslik, isclose, decide_eq_true_eq, rtolVarsayilan]
    rw [sub_self, abs_zero]
    positivity
  simp [ikili_karsilastirma_matrisi_dogrula, hfin, hle, hdiag, hrec]

/-! ### Claim C7: the validator -/

theorem mem_if_tek {b : Bool} {s t : String} :
    (t ∈ if b then [s] else []) ↔ b = true ∧ t = s := by
  cases b <;> simp

theorem poz_kosul_iff {n : Nat} {m : Nat → Nat → Fl α} :
    ((!(natAll n fun i => natAll n fun j => (m i j).isfinite)
      || (natAny n fun i => natAny n fun j => (m i j).leZero)) = true)
    ↔ ∃ i < n, ∃ j < n, ((m i j).isfinite = false ∨ (m i j).leZero = true) := by
  rw [Bool.or_eq_true, Bool.not_eq_true', natAll_eq_false, natAny_eq_true]
  constructor
  · rintro (⟨i, hi, hif⟩ | ⟨i, hi, hia⟩)
    · rw [natAll_eq_false] at hif
      obtain ⟨j, hj, hjf⟩ := hif
      exact ⟨i, hi, j, hj, Or.inl hjf⟩
    · rw [natAny_eq_true] at hia
      obtain ⟨j, hj, hjf⟩ := hia
      exact ⟨i, hi, j, hj, Or.inr hjf⟩
  · rintro ⟨i, hi, j, hj, hc | hc⟩
    · exact Or.inl ⟨i, hi, by rw [natAll_eq_false]; exact ⟨j, hj, hc⟩⟩
    · exact Or.inr ⟨i, hi, by rw [natAny_eq_true]; exact ⟨j, hj, hc⟩⟩

theorem karsilik_kosul_iff {n : Nat} {g : Nat → Nat → Fl α} {m : Nat → Nat → Fl α}
    (hz : ∀ i < n, ∀ j < n, m i j ≠ Fl.fin 0) :
    ((!(natAll n fun i => natAll n fun j =>
        isclose rtolVarsayilan ((1 : α) / 1000000) (m j i)
          (if m i j = Fl.fin 0 then g i j else Fl.terslik (m i j)))) = true)
    ↔ ∃ i < n, ∃ j < n,
        isclose rtolVarsayilan ((1 : α) / 1000000) (m j i)
          (Fl.terslik (m i j)) = false := by
  rw [Bool.not_eq_true', natAll_eq_false]
  constructor
  · rintro ⟨i, hi, hif⟩
    rw [natAll_eq_false] at hif
    obtain ⟨j, hj, hjf⟩ := hif
    rw [if_neg (hz i hi j hj)] at hjf
    exact ⟨i, hi, j, hj, hjf⟩
  · rintro ⟨i, hi, j, hj, hc⟩
    refine ⟨i, hi, ?_⟩
    rw [natAll_eq_false]
    exact ⟨j, hj, by rw [if_neg (hz i hi j hj)]; exact hc⟩

/-- C7 counterexample: the claim states the diagonal check flags any
diagonal cell differing from 1 beyond tolerance 1e-8.  On the 1×1 matrix
with single entry `1 + 1e-6` — which differs from 1 by 1e-6, far beyond
1e-8 — the validator returns an empty violation list, because
`np.allclose(·, 1, atol=1e-8)` keeps its default `rtol = 1e-5`, making the
effective tolerance `1e-8 + 1e-5`. -/
theorem claim_C7_karsit :
    ikili_karsilastirma_matrisi_dogrula (fun _ _ => (Fl.nan : Fl ℚ))
        (1 / 100000000) 1 1 (fun _ _ => Fl.fin (1 + 1 / 1000000)) = []
    ∧ ¬(|(1 + 1 / 1000000 : ℚ) - 1| ≤ 1 / 100000000) := by
  constructor
  · decide
  · decide

/-- C7 (amended): `ikili_karsilastirma_matrisi_dogrula` is pure given the
contents `g` of the uninitialized memory that `np.reciprocal(m, where=m≠0)`
leaves at zero cells (for a matrix without zero cells, `g` is irrelevant,
which the hypothesis `hz` captures).  For a non-square input it returns
exactly the one shape violation and checks nothing else.  For a square
input it accumulates, without short-circuiting, each of the three
violations exactly when its condition holds — with `np.allclose`
semantics, i.e. tolerance `atol + rtol·|reference|` with default
`rtol = 1e-5`, not the bare `atol` of 1e-8 (diagonal) / 1e-6 (reciprocity)
stated in the claim; an empty returned list means the matrix is valid. -/
theorem claim_C7_duzeltilmis (g : Nat → Nat → Fl α) (tolerans : α)
    (satir sutun : Nat) (m : Nat → Nat → Fl α)
    (hz : ∀ i < satir, ∀ j < satir, m i j ≠ Fl.fin 0) :
    (satir ≠ sutun →
      ikili_karsilastirma_matrisi_dogrula g tolerans satir sutun m =
        ["Ikili karsilastirma matrisi kare olmali (n x n)."]) ∧
    (satir = sutun →
      (("Tum hucreler pozitif ve sonlu sayilar olmali." ∈
          ikili_karsilastirma_matrisi_dogrula g tolerans satir sutun m) ↔
        ∃ i < satir, ∃ j < satir,
          ((m i j).isfinite = false ∨ (m i j).leZero = true)) ∧
      (("Kosegen degerleri 1 olmali." ∈
          ikili_karsilastirma_matrisi_dogrula g tolerans satir sutun m) ↔
        ∃ i < satir,
          isclose rtolVarsayilan tolerans (m i i) (Fl.fin 1) = false) ∧
      (("Matris karsilikli olmali: a_ij = 1 / a_ji." ∈
          ikili_karsilastirma_matrisi_dogrula g tolerans satir sutun m) ↔
        ∃ i < satir, ∃ j < satir,
          isclose rtolVarsayilan ((1 : α) / 1000000) (m j i)
            (Fl.terslik (m i j)) = false)) := by
  constructor
  · intro hne
    unfold ikili_karsilastirma_matrisi_dogrula
    rw [if_pos hne]
  · intro heq
    subst heq
    have hout : ikili_karsilastirma_matrisi_dogrula g tolerans satir satir m =
        (if !(natAll satir fun i => natAll satir fun j => (m i j).isfinite)
            || (natAny satir fun i => natAny satir fun j => (m i j).leZero) then
          ["Tum hucreler pozitif ve sonlu sayilar olmali."] else []) ++
        (if !(natAll satir fun i =>
              isclose rtolVarsayilan tolerans (m i i) (Fl.fin 1)) then
          ["Kosegen degerleri 1 olmali."] else []) ++
        (if !(natAll satir fun i => natAll satir fun j =>
              isclose rtolVarsayilan ((1 : α) / 1000000) (m j i)
                (if m i j = Fl.fin 0 then g i j else Fl.terslik (m i j))) then
          ["Matris karsilikli olmali: a_ij = 1 / a_ji."] else []) := by
      unfold ikili_karsilastirma_matrisi_dogrula
      rw [if_neg (by simp)]
    refine ⟨?_, ?_, ?_⟩
    · rw [hout]
      simp only [List.mem_append, mem_if_tek]
      rw [← poz_kosul_iff]
      simp
    · rw [hout]
      simp only [List.mem_append, mem_if_tek]
      rw [show (∃ i < satir, isclose rtolVarsayilan tolerans (m i i)
          (Fl.fin 1) = false) ↔ ((!(natAll satir fun i =>
            isclose rtolVarsayilan tolerans (m i i) (Fl.fin 1))) = true) from
        by rw [Bool.not_eq_true', natAll_eq_false]]
      simp
    · rw [hout]
      simp only [List.mem_append, mem_if_tek]
      rw [← @karsilik_kosul_iff α _ satir g m hz]
      simp

/-- Witness for the amended C7 on a concrete 2×2 zero-free matrix. -/
theorem claim_C7_duzeltilmis_tanik :
    ((2 : Nat) ≠ 2 →
      ikili_karsilastirma_matrisi_dogrula (fun _ _ => (Fl.nan : Fl ℚ))
          (1 / 100000000) 2 2
          (fun i j => if i = j then Fl.fin 1
            else if i < j then Fl.fin 2 else Fl.fin (1 / 2)) =
        ["Ikili karsilastirma matrisi kare olmali (n x n)."]) ∧
    ((2 : Nat) = 2 →
      (("Tum hucreler pozitif ve sonlu sayilar olmali." ∈
          ikili_karsilastirma_matrisi_dogrula (fun _ _ => (Fl.nan : Fl ℚ))
            (1 / 100000000) 2 2
            (fun i j => if i = j then Fl.fin 1
              else if i < j then Fl.fin 2 else Fl.fin (1 / 2))) ↔
        ∃ i < 2, ∃ j < 2,
          (((fun i j => if i = j then Fl.fin 1
              else if i < j then Fl.fin 2
              else (Fl.fin (1 / 2) : Fl ℚ)) i j).isfinite = false ∨
            ((fun i j => if i = j then Fl.fin 1
              else if i < j then Fl.fin 2
              else (Fl.fin (1 / 2) : Fl ℚ)) i j).leZero = true)) ∧
      (("Kosegen degerleri 1 olmali." ∈
          ikili_karsilastirma_matrisi_dogrula (fun _ _ => (Fl.nan : Fl ℚ))
            (1 / 100000000) 2 2
            (fun i j => if i = j then Fl.fin 1
              else if i < j then Fl.fin 2 else Fl.fin (1 / 2))) ↔
        ∃ i < 2,
          isclose rtolVarsayilan (1 / 100000000)
            ((fun i j => if i = j then Fl.fin 1
              else if i < j then Fl.fin 2
              else (Fl.fin (1 / 2) : Fl ℚ)) i i) (Fl.fin 1) = false) ∧
      (("Matris karsilikli olmali: a_ij = 1 / a_ji." ∈
          ikili_karsilastirma_matrisi_dogrula (fun _ _ => (Fl.nan : Fl ℚ))
            (1 / 100000000) 2 2
            (fun i j => if i = j then Fl.fin 1
              else if i < j then Fl.fin 2 else Fl.fin (1 / 2))) ↔
        ∃ i < 2, ∃ j < 2,
          isclose rtolVarsayilan ((1 : ℚ) / 1000000)
            ((fun i j => if i = j then Fl.fin 1
              else if i < j then Fl.fin 2
              else (Fl.fin (1 / 2) : Fl ℚ)) j i)
            (Fl.terslik ((fun i j => if i = j then Fl.fin 1
              else if i < j then Fl.fin 2
              else (Fl.fin (1 / 2) : Fl ℚ)) i j)) = false)) :=
  claim_C7_duzeltilmis (fun _ _ => (Fl.nan : Fl ℚ)) (1 / 100000000) 2 2
    (fun i j => if i = j then Fl.fin 1
      else if i < j then Fl.fin 2 else Fl.fin (1 / 2))
    (by decide)

/-! ### Claims C1 and C2: AHP weight derivation -/

theorem listSum_map_div (l : List α) (c : α) :
    (l.map fun x => x / c).sum = l.sum / c := by
  induction l with
  | nil => simp
  | cons x xs ih => simp [ih, add_div]

theorem abs_listSum_pos {l : List α} {x : α} (hx : x ∈ l) (hne : x ≠ 0) :
    0 < (l.map fun y => |y|).sum := by
  have h1 : |x| ≤ (l.map fun y => |y|).sum := by
    apply List.single_le_sum
    · intro y hy
      obtain ⟨z, _, rfl⟩ := List.mem_map.mp hy
      exact abs_nonneg z
    · exact List.mem_map_of_mem _ hx
  exact lt_of_lt_of_le (abs_pos.mpr hne) h1

/-- C1: for every pairwise matrix that passes validation, with dimension
matching the criteria count, the computed weights are keyed by the
criterion identifiers in input order, are all nonnegative, and sum to 1
exactly (hence within 1e-9).  The hypotheses about the oracle eigenvector
hold of `np.linalg.eig` output: the returned column has the matrix
dimension and unit Euclidean norm, so it is not the zero vector (for a
validated — hence positive — matrix the dominant eigenpair is real by
Perron-Frobenius, so its real part is the eigenvector itself). -/
theorem claim_C1 (g : Nat → Nat → Fl α) (satir sutun : Nat)
    (m : Nat → Nat → Fl α) (kriterler : List String)
    (lambdaMaks : α) (ozvektor : List α)
    (hdim : satir = kriterler.length)
    (hval : ikili_karsilastirma_matrisi_dogrula g (1 / 100000000) satir sutun m = [])
    (hvlen : ozvektor.length = satir)
    (hvnz : ∃ x ∈ ozvektor, x ≠ 0) :
    ∃ sonuc, ahp_agirliklarini_hesapla g satir sutun m kriterler lambdaMaks ozvektor
        = .ok sonuc
      ∧ sonuc.agirliklar.map Prod.fst = kriterler
      ∧ (∀ w ∈ sonuc.agirliklar.map Prod.snd, 0 ≤ w)
      ∧ (sonuc.agirliklar.map Prod.snd).sum = 1
      ∧ |(sonuc.agirliklar.map Prod.snd).sum - 1| ≤ 1 / 1000000000 := by
  obtain ⟨x, hx, hxne⟩ := hvnz
  have hpos : 0 < ((ozvektor.map fun y => |y|).sum) := abs_listSum_pos hx hxne
  have hlen2 : ((ozvektor.map fun y => |y|).map
      fun y => y / (ozvektor.map fun z => |z|).sum).length = kriterler.length := by
    simp [hvlen, hdim]
  have hsnd : ((kriterler.zip ((ozvektor.map fun y => |y|).map
      fun y => y / (ozvektor.map fun z => |z|).sum)).map Prod.snd)
      = (ozvektor.map fun y => |y|).map
        fun y => y / (ozvektor.map fun z => |z|).sum :=
    List.map_snd_zip _ _ (le_of_eq hlen2)
  have hsum : (((ozvektor.map fun y => |y|).map
      fun y => y / (ozvektor.map fun z => |z|).sum)).sum = 1 := by
    rw [listSum_map_div]
    exact div_self (ne_of_gt hpos)
  obtain ⟨sonuc, hok⟩ : ∃ s, ahp_agirliklarini_hesapla g satir sutun m kriterler
      lambdaMaks ozvektor = .ok s := by
    simp only [ahp_agirliklarini_hesapla, hval]
    rw [if_neg (not_ne_iff.mpr hdim), if_neg (by simp)]
    exact ⟨_, rfl⟩
  have hok2 := hok
  simp only [ahp_agirliklarini_hesapla, hval] at hok2
  rw [if_neg (not_ne_iff.mpr hdim), if_neg (by simp)] at hok2
  obtain rfl := Except.ok.inj hok2
  refine ⟨_, hok, ?_, ?_, ?_, ?_⟩
  · exact List.map_fst_zip _ _ (ge_of_eq hlen2)
  · intro w hw
    rw [hsnd] at hw
    obtain ⟨y, hy, rfl⟩ := List.mem_map.mp hw
    obtain ⟨z, _, rfl⟩ := List.mem_map.mp hy
    exact div_nonneg (abs_nonneg _) (le_of_lt hpos)
  · rw [hsnd]
    exact hsum
  · rw [hsnd, hsum]
    rw [sub_self, abs_zero]
    positivity

/-- Witness for C1 on the concrete valid 2×2 matrix `[[1, 2], [1/2, 1]]`
with eigenvector `[2, 1]`. -/
theorem claim_C1_tanik :
    ∃ sonuc, ahp_agirliklarini_hesapla (fun _ _ => (Fl.nan : Fl ℚ)) 2 2
        (fun i j => if i = j then Fl.fin 1
          else if i < j then Fl.fin 2 else Fl.fin (1 / 2))
        ["yakit_tipi", "beygir_gucu"] 2 [2, 1] = .ok sonuc
      ∧ sonuc.agirliklar.map Prod.fst = ["yakit_tipi", "beygir_gucu"]
      ∧ (∀ w ∈ sonuc.agirliklar.map Prod.snd, 0 ≤ w)
      ∧ (sonuc.agirliklar.map Prod.snd).sum = 1
      ∧ |(sonuc.agirliklar.map Prod.snd).sum - 1| ≤ 1 / 1000000000 :=
  claim_C1 (fun _ _ => (Fl.nan : Fl ℚ)) 2 2
    (fun i j => if i = j then Fl.fin 1
      else if i < j then Fl.fin 2 else Fl.fin (1 / 2))
    ["yakit_tipi", "beygir_gucu"] 2 [2, 1]
    (by decide) (by decide) (by decide) (by decide)

theorem listGetD_const {l : List α} {n : Nat} {c : α}
    (hlen : l.length = n) (h : ∀ i < n, l.getD i 0 = c) :
    l = List.replicate n c := by
  rw [List.eq_replicate_iff]
  refine ⟨hlen, ?_⟩
  intro b hb
  obtain ⟨i, hi, hget⟩ := List.mem_iff_getElem.mp hb
  have : l.getD i 0 = c := h i (by rw [← hlen]; exact hi)
  rw [List.getD_eq_getElem?_getD, List.getElem?_eq_getElem hi] at this
  simp at this
  rw [← hget, this]

/-- All-ones matrices pass validation. -/
theorem birler_matrisi_gecerli (g : Nat → Nat → Fl α) (n : Nat)
    (m : Nat → Nat → Fl α) (hm : ∀ i < n, ∀ j < n, m i j = Fl.fin 1) :
    ikili_karsilastirma_matrisi_dogrula g (1 / 100000000) n n m = [] := by
  have hfin : (natAll n fun i => natAll n fun j => (m i j).isfinite) = true := by
    rw [natAll_eq_true]
    intro i hi
    rw [natAll_eq_true]
    intro j hj
    rw [hm i hi j hj]
    rfl
  have hle : (natAny n fun i => natAny n fun j => (m i j).leZero) = false := by
    rw [natAny_eq_false]
    intro i hi
    rw [natAny_eq_false]
    intro j hj
    rw [hm i hi j hj]
    simp [Fl.leZero]
  have hdiag : (natAll n fun i => isclose rtolVarsayilan
      ((100000000 : α)⁻¹) (m i i) (Fl.fin 1)) = true := by
    rw [natAll_eq_true]
    intro i hi
    rw [hm i hi i hi]
    simp only [isclose, decide_eq_true_eq, rtolVarsayilan]
    rw [sub_self, abs_zero]
    positivity
  have hrec : (natAll n fun i => natAll n fun j =>
      isclose rtolVarsayilan ((1000000 : α)⁻¹) (m j i)
        (if m i j = Fl.fin 0 then g i j else Fl.terslik (m i j))) = true := by
    rw [natAll_eq_true]
    intro i hi
    rw [natAll_eq_true]
    intro j hj
    rw [hm i hi j hj, hm j hj i hi, if_neg (by simp)]
    simp only [Fl.terslik, isclose, decide_eq_true_eq, rtolVarsayilan]
    rw [one_div_one, sub_self, abs_zero]
    positivity
  simp [ikili_karsilastirma_matrisi_dogrula, hfin, hle, hdiag, hrec]

/-- C2: on the n×n all-ones matrix (n = 1..10) the AHP solver returns the
uniform weight `1/n` for every criterion (in input key order),
`lambda_max = n`, `CI = 0` and `CR = 0` — for n=4, weights
`[0.25, 0.25, 0.25, 0.25]` and `CR = 0`.  The oracle hypotheses hold of
`np.linalg.eig`: the returned principal eigenpair of the all-ones matrix
satisfies the eigenvalue equation `lam · v_i = Σ_j v_j`, the eigenvector
is unit-norm hence nonzero, and the selected eigenvalue — the one of
maximal real part in the spectrum {n, 0} — is positive. -/
theorem claim_C2 (g : Nat → Nat → Fl α) (n : Nat) (h1 : 1 ≤ n) (h10 : n ≤ 10)
    (kriterler : List String) (hk : kriterler.length = n)
    (m : Nat → Nat → Fl α) (hm : ∀ i < n, ∀ j < n, m i j = Fl.fin 1)
    (lam : α) (v : List α) (hlam : 0 < lam) (hvlen : v.length = n)
    (hvnz : ∃ x ∈ v, x ≠ 0)
    (heig : ∀ i < n, lam * v.getD i 0 = v.sum) :
    ahp_agirliklarini_hesapla g n n m kriterler lam v =
      .ok ⟨kriterler.zip (List.replicate n (1 / (n : α))), (n : α), 0, 0⟩ := by
  -- The eigenvector is constant and the eigenvalue is n.
  have hs : v.sum ≠ 0 := by
    intro hs0
    obtain ⟨x, hx, hxne⟩ := hvnz
    obtain ⟨i, hi, hget⟩ := List.mem_iff_getElem.mp hx
    have hieq := heig i (by rw [← hvlen]; exact hi)
    rw [hs0, mul_eq_zero] at hieq
    rcases hieq with h | h
    · exact ne_of_gt hlam h
    · rw [List.getD_eq_getElem?_getD, List.getElem?_eq_getElem hi,
        Option.getD_some] at h
      exact hxne (by rw [← hget]; exact h)
  have hconst : v = List.replicate n (v.sum / lam) := by
    apply listGetD_const hvlen
    intro i hi
    rw [eq_div_iff (ne_of_gt hlam), mul_comm]
    exact heig i hi
  have hlamn : lam = (n : α) := by
    have hsum : v.sum = (n : α) * (v.sum / lam) := by
      conv_lhs => rw [hconst]
      rw [List.sum_replicate, nsmul_eq_mul]
    have h2 : lam * v.sum = (n : α) * v.sum := by
      calc lam * v.sum = lam * ((n : α) * (v.sum / lam)) := by rw [← hsum]
        _ = (n : α) * (v.sum / lam * lam) := by ring
        _ = (n : α) * v.sum := by rw [div_mul_cancel₀ _ (ne_of_gt hlam)]
    exact mul_right_cancel₀ hs h2
  have hc : v.sum / lam ≠ 0 := by
    obtain ⟨x, hx, hxne⟩ := hvnz
    rw [hconst] at hx
    exact (List.eq_of_mem_replicate hx) ▸ hxne
  have habs : v.map (fun y => |y|) = List.replicate n |v.sum / lam| := by
    conv_lhs => rw [hconst]
    rw [List.map_replicate]
  have hwts : ((v.map fun y => |y|).map
      fun y => y / (v.map fun z => |z|).sum) = List.replicate n (1 / (n : α)) := by
    simp only [habs, List.map_replicate]
    congr 1
    rw [List.sum_replicate, nsmul_eq_mul, mul_comm,
      div_mul_cancel_left₀ (abs_ne_zero.mpr hc), one_div]
  simp only [ahp_agirliklarini_hesapla, birler_matrisi_gecerli g n m hm]
  rw [if_neg (not_ne_iff.mpr hk.symm), if_neg (by simp)]
  rw [hlamn, hwts, sub_self, zero_div, ite_self, zero_div, ite_self]
  simp

/-- Witness for C2: the 4×4 all-ones matrix with criteria
`[yakit_tipi, beygir_gucu, kapi_sayisi, kasa_tipi]`, principal eigenpair
`(4, [1, 1, 1, 1])`, yields weights `[1/4, 1/4, 1/4, 1/4]`,
`lambda_max = 4`, `CI = CR = 0`. -/
theorem claim_C2_tanik :
    ahp_agirliklarini_hesapla (fun _ _ => (Fl.nan : Fl ℚ)) 4 4
        (fun _ _ => Fl.fin 1)
        ["yakit_tipi", "beygir_gucu", "kapi_sayisi", "kasa_tipi"]
        4 [1, 1, 1, 1] =
      .ok ⟨["yakit_tipi", "beygir_gucu", "kapi_sayisi", "kasa_tipi"].zip
            (List.replicate 4 (1 / ((4 : Nat) : ℚ))), ((4 : Nat) : ℚ), 0, 0⟩ :=
  claim_C2 (fun _ _ => (Fl.nan : Fl ℚ)) 4 (by decide) (by decide)
    ["yakit_tipi", "beygir_gucu", "kapi_sayisi", "kasa_tipi"] (by decide)
    (fun _ _ => Fl.fin 1) (by decide) 4 [1, 1, 1, 1] (by decide) (by decide)
    (by decide) (by decide)

/-! ### Claims C8, C9, C10: decision-matrix construction -/

/-- When both user labels resolve, the builder returns the full
distance matrix. -/
theorem olustur_ok {araclar : List (Nat × Arac α)} {uy uka : String}
    {ub : α} {uk : Int} {yakit kasa : List (String × α)} {yt kt : α}
    (hy : ara uy yakit = some yt) (hk : ara uka kasa = some kt) :
    kullanici_maliyet_matrisi_olustur araclar uy ub uk uka yakit kasa =
      .ok { sutunlar := ["yakit_tipi", "beygir_gucu", "kapi_sayisi", "kasa_tipi"],
            satirIdx := araclar.map Prod.fst,
            veri := araclar.map fun ik =>
              [ puanMesafe yakit ik.2.yakit_tipi yt,
                Fl.fin |ik.2.beygir_gucu - ub|,
                Fl.fin ((|ik.2.kapi_sayisi - uk| : Int) : α),
                puanMesafe kasa ik.2.kasa_tipi kt ] } := by
  unfold kullanici_maliyet_matrisi_olustur
  rw [hy, hk]

/-- C8: when the user's chosen fuel-type or body-style category is absent
from the corresponding score map, the builder raises (returns an error)
before any matrix cell is computed — the membership guards precede the
column construction in the source — and returns no matrix at all. -/
theorem claim_C8 (araclar : List (Nat × Arac α)) (kullaniciYakit : String)
    (kullaniciBeygir : α) (kullaniciKapi : Int) (kullaniciKasa : String)
    (yakit_puanlari kasa_puanlari : List (String × α))
    (h : ara kullaniciYakit yakit_puanlari = none ∨
      ara kullaniciKasa kasa_puanlari = none) :
    ∃ e, kullanici_maliyet_matrisi_olustur araclar kullaniciYakit kullaniciBeygir
        kullaniciKapi kullaniciKasa yakit_puanlari kasa_puanlari = .error e := by
  rcases h with h | h
  · refine ⟨"Bilinmeyen yakit_tipi: " ++ kullaniciYakit, ?_⟩
    unfold kullanici_maliyet_matrisi_olustur
    rw [h]
  · cases hy : ara kullaniciYakit yakit_puanlari with
    | none =>
      refine ⟨"Bilinmeyen yakit_tipi: " ++ kullaniciYakit, ?_⟩
      unfold kullanici_maliyet_matrisi_olustur
      rw [hy]
    | some yv =>
      refine ⟨"Bilinmeyen kasa_tipi: " ++ kullaniciKasa, ?_⟩
      unfold kullanici_maliyet_matrisi_olustur
      rw [hy, h]

/-- Witness for C8: target body style wagon against the score map with
keys hb, sedan, suv, kupe raises the unknown-category error. -/
theorem claim_C8_tanik :
    ∃ e, kullanici_maliyet_matrisi_olustur
        ([(0, ⟨"benzin", 100, 4, "sedan"⟩)] : List (Nat × Arac ℚ))
        "benzin" 150 4 "wagon"
        [("benzin", 3)]
        [("hb", 3), ("sedan", 2), ("suv", 4), ("kupe", 3)] = .error e :=
  claim_C8 _ _ _ _ _ _ _ (Or.inr (by decide))

/-- C9: with score maps covering every catalog label, building the matrix
with target values equal to item `p`'s own attributes yields the all-zero
row at position `p`; every cell of the matrix is a nonnegative finite
absolute distance, and row identity and order are preserved exactly. -/
theorem claim_C9 (araclar : List (Nat × Arac α))
    (yakit kasa : List (String × α))
    (kapY : ∀ ia ∈ araclar, (ara (Prod.snd ia).yakit_tipi yakit).isSome = true)
    (kapK : ∀ ia ∈ araclar, (ara (Prod.snd ia).kasa_tipi kasa).isSome = true)
    (p ix : Nat) (arac : Arac α)
    (hget : araclar[p]? = some (ix, arac)) :
    ∃ karar, kullanici_maliyet_matrisi_olustur araclar arac.yakit_tipi
        arac.beygir_gucu arac.kapi_sayisi arac.kasa_tipi yakit kasa = .ok karar
      ∧ karar.satirIdx = araclar.map Prod.fst
      ∧ karar.veri.length = araclar.length
      ∧ (∀ satir ∈ karar.veri, ∀ hucre ∈ satir, ∃ q, hucre = Fl.fin q ∧ 0 ≤ q)
      ∧ karar.veri.getD p [] = [Fl.fin 0, Fl.fin 0, Fl.fin 0, Fl.fin 0] := by
  have hmem : (ix, arac) ∈ araclar := List.getElem?_mem hget
  obtain ⟨yt, hyt⟩ := Option.isSome_iff_exists.mp (kapY _ hmem)
  obtain ⟨kt, hkt⟩ := Option.isSome_iff_exists.mp (kapK _ hmem)
  refine ⟨_, olustur_ok hyt hkt, rfl, by simp, ?_, ?_⟩
  · intro satir hs hucre hh
    obtain ⟨ia, hia, rfl⟩ := List.mem_map.mp hs
    obtain ⟨yv, hyv⟩ := Option.isSome_iff_exists.mp (kapY _ hia)
    obtain ⟨kv, hkv⟩ := Option.isSome_iff_exists.mp (kapK _ hia)
    simp only [List.mem_cons, List.not_mem_nil, or_false] at hh
    rcases hh with rfl | rfl | rfl | rfl
    · exact ⟨|yv - yt|, by simp [puanMesafe, hyv], abs_nonneg _⟩
    · exact ⟨_, rfl, abs_nonneg _⟩
    · exact ⟨_, rfl, Int.cast_nonneg.mpr (abs_nonneg _)⟩
    · exact ⟨|kv - kt|, by simp [puanMesafe, hkv], abs_nonneg _⟩
  · rw [List.getD_eq_getElem?_getD, List.getElem?_map, hget]
    simp [puanMesafe, hyt, hkt]

/-- Witness for C9: a two-item catalog with identity-covering maps; the
user target equals the second item's attributes, so row 1 is all zeros. -/
theorem claim_C9_tanik :
    ∃ karar, kullanici_maliyet_matrisi_olustur
        ([(0, ⟨"benzin", 100, 4, "sedan"⟩),
          (1, ⟨"dizel", 150, 2, "suv"⟩)] : List (Nat × Arac ℚ))
        "dizel" 150 2 "suv"
        [("benzin", 3), ("dizel", 2)] [("sedan", 2), ("suv", 4)] = .ok karar
      ∧ karar.satirIdx = [0, 1]
      ∧ karar.veri.length = 2
      ∧ (∀ satir ∈ karar.veri, ∀ hucre ∈ satir, ∃ q, hucre = Fl.fin q ∧ 0 ≤ q)
      ∧ karar.veri.getD 1 [] = [Fl.fin 0, Fl.fin 0, Fl.fin 0, Fl.fin 0] :=
  claim_C9 _ _ _ (by decide) (by decide) 1 1 ⟨"dizel", 150, 2, "suv"⟩ (by decide)

/-- TOPSIS raises the non-finite error when the matrix is nonempty and
contains a non-finite cell. -/
theorem topsis_sonlu_olmayan (rt : α → α) (karar : KararMatrisi α)
    (agirliklar : List (String × Fl α)) (yonler : List (String × String))
    (hne : ¬(karar.veri = [] ∨ karar.sutunlar = []))
    (hbad : ∃ satir ∈ karar.veri, ∃ x ∈ satir, x.isfinite = false) :
    topsis_puanlarini_hesapla rt karar agirliklar yonler =
      .error "Karar matrisinde gecersiz (sonlu olmayan) deger var." := by
  unfold topsis_puanlarini_hesapla
  rw [if_neg hne, if_pos]
  rw [Bool.not_eq_true', List.all_eq_false]
  obtain ⟨satir, hs, x, hx, hxf⟩ := hbad
  refine ⟨satir, hs, ?_⟩
  simp only [Bool.not_eq_true, List.all_eq_false]
  exact ⟨x, hx, by simp [hxf]⟩

/-- C10: an item whose categorical label is missing from its score map
does not make the builder raise; the matrix is returned with a NaN cell in
that item's row, and any subsequent TOPSIS call on that matrix raises the
non-finite-value error — regardless of weights and directions. -/
theorem claim_C10 (araclar : List (Nat × Arac α))
    (yakit kasa : List (String × α)) (uy uka : String) (ub : α) (uk : Int)
    (p ix : Nat) (arac : Arac α)
    (hget : araclar[p]? = some (ix, arac))
    (hy : (ara uy yakit).isSome = true) (hk : (ara uka kasa).isSome = true)
    (hmiss : ara arac.yakit_tipi yakit = none ∨ ara arac.kasa_tipi kasa = none) :
    ∃ karar, kullanici_maliyet_matrisi_olustur araclar uy ub uk uka yakit kasa
        = .ok karar
      ∧ (∃ j < 4, (karar.veri.getD p []).getD j (Fl.fin 0) = Fl.nan)
      ∧ (∀ (rt : α → α) (agirliklar : List (String × Fl α))
          (yonler : List (String × String)),
          topsis_puanlarini_hesapla rt karar agirliklar yonler =
            .error "Karar matrisinde gecersiz (sonlu olmayan) deger var.") := by
  obtain ⟨yt, hyt⟩ := Option.isSome_iff_exists.mp hy
  obtain ⟨kt, hkt⟩ := Option.isSome_iff_exists.mp hk
  refine ⟨_, olustur_ok hyt hkt, ?_, ?_⟩
  · rw [List.getD_eq_getElem?_getD, List.getElem?_map, hget]
    rcases hmiss with h | h
    · exact ⟨0, by norm_num, by simp [puanMesafe, h]⟩
    · exact ⟨3, by norm_num, by simp [puanMesafe, h]⟩
  · intro rt agirliklar yonler
    apply topsis_sonlu_olmayan
    · rintro (hv | hs)
      · have hplen : p < araclar.length := by
          by_contra hcon
          rw [List.getElem?_eq_none (le_of_not_lt hcon)] at hget
          exact Option.noConfusion hget
        have : araclar.length = 0 := by
          have := congrArg List.length hv
          simpa using this
        omega
      · exact List.noConfusion hs
    · have hgm : (araclar.map fun ik =>
          [ puanMesafe yakit ik.2.yakit_tipi yt,
            Fl.fin |ik.2.beygir_gucu - ub|,
            Fl.fin ((|ik.2.kapi_sayisi - uk| : Int) : α),
            puanMesafe kasa ik.2.kasa_tipi kt ])[p]? = some
          [ puanMesafe yakit arac.yakit_tipi yt,
            Fl.fin |arac.beygir_gucu - ub|,
            Fl.fin ((|arac.kapi_sayisi - uk| : Int) : α),
            puanMesafe kasa arac.kasa_tipi kt ] := by
        rw [List.getElem?_map, hget]
        rfl
      refine ⟨_, List.getElem?_mem hgm, ?_⟩
      rcases hmiss with h | h
      · exact ⟨puanMesafe yakit arac.yakit_tipi yt, by simp,
          by simp [puanMesafe, h, Fl.isfinite]⟩
      · exact ⟨puanMesafe kasa arac.kasa_tipi kt, by simp,
          by simp [puanMesafe, h, Fl.isfinite]⟩

/-- Witness for C10: a catalog whose single item has fuel label lpg,
missing from the fuel score map, while the user's choices are present;
the matrix is built with a NaN cell and TOPSIS rejects it. -/
theorem claim_C10_tanik :
    ∃ karar, kullanici_maliyet_matrisi_olustur
        ([(0, ⟨"lpg", 100, 4, "sedan"⟩)] : List (Nat × Arac ℚ))
        "benzin" 150 4 "sedan"
        [("benzin", 3)] [("sedan", 2)] = .ok karar
      ∧ (∃ j < 4, (karar.veri.getD 0 []).getD j (Fl.fin 0) = Fl.nan)
      ∧ (∀ (rt : ℚ → ℚ) (agirliklar : List (String × Fl ℚ))
          (yonler : List (String × String)),
          topsis_puanlarini_hesapla rt karar agirliklar yonler =
            .error "Karar matrisinde gecersiz (sonlu olmayan) deger var.") :=
  claim_C10 [(0, ⟨"lpg", 100, 4, "sedan"⟩)] [("benzin", 3)] [("sedan", 2)]
    "benzin" "sedan" 150 4 0 0 ⟨"lpg", 100, 4, "sedan"⟩
    (by decide) (by decide) (by decide) (Or.inl (by decide))

/-! ### Claims C3 and C4: TOPSIS -/

theorem hepsiniBul_none_iff {β : Type} {anahtarlar : List String}
    {tablo : List (String × β)} :
    hepsiniBul anahtarlar tablo = none ↔ ∃ s ∈ anahtarlar, ara s tablo = none := by
  induction anahtarlar with
  | nil => simp [hepsiniBul]
  | cons s rest ih =>
    cases h : ara s tablo with
    | none => simp [hepsiniBul, h]
    | some v =>
      cases hr : hepsiniBul rest tablo with
      | none =>
        simp only [hepsiniBul, h, hr]
        constructor
        · intro _
          obtain ⟨t, ht, htn⟩ := ih.mp hr
          exact ⟨t, List.mem_cons_of_mem _ ht, htn⟩
        · intro _
          trivial
      | some vs =>
        simp only [hepsiniBul, h, hr]
        constructor
        · intro hcon
          exact Option.noConfusion hcon
        · rintro ⟨t, ht, htn⟩
          rcases List.mem_cons.mp ht with rfl | ht2
          · rw [h] at htn
            exact Option.noConfusion htn
          · have := ih.mpr ⟨t, ht2, htn⟩
            rw [hr] at this
            exact Option.noConfusion this

theorem hepsiniBul_some {β : Type} {anahtarlar : List String}
    {tablo : List (String × β)} {vs : List β} (d : β)
    (h : hepsiniBul anahtarlar tablo = some vs) :
    vs = anahtarlar.map (fun s => (ara s tablo).getD d) ∧
      ∀ s ∈ anahtarlar, ara s tablo ≠ none := by
  induction anahtarlar generalizing vs with
  | nil =>
    simp only [hepsiniBul, Option.some.injEq] at h
    simp [← h]
  | cons s rest ih =>
    cases hs : ara s tablo with
    | none =>
      rw [hepsiniBul, hs] at h
      exact Option.noConfusion h
    | some v =>
      cases hr : hepsiniBul rest tablo with
      | none =>
        rw [hepsiniBul, hs, hr] at h
        exact Option.noConfusion h
      | some ws =>
        rw [hepsiniBul, hs, hr] at h
        obtain rfl := (Option.some.inj h).symm
        obtain ⟨hmap, hnone⟩ := ih hr
        constructor
        · rw [List.map_cons, hs, ← hmap]
          rfl
        · intro t ht
          rcases List.mem_cons.mp ht with rfl | ht2
          · rw [hs]
            exact fun hcon => Option.noConfusion hcon
          · exact hnone t ht2

theorem kareToplam_nonneg (xs : List α) : 0 ≤ kareToplam xs := by
  apply List.sum_nonneg
  intro y hy
  obtain ⟨z, _, rfl⟩ := List.mem_map.mp hy
  exact mul_self_nonneg z

theorem uzaklik_getD_nonneg {rt : α → α} (hrt : ∀ y : α, 0 ≤ y → 0 ≤ rt y)
    (A : List (List α)) (nokta : List α) (i : Nat) :
    0 ≤ (uzaklik rt A nokta).getD i 0 := by
  rw [List.getD_eq_getElem?_getD]
  cases h : (uzaklik rt A nokta)[i]? with
  | none => simp
  | some x =>
    simp only [Option.getD_some]
    have hx : x ∈ uzaklik rt A nokta := List.getElem?_mem h
    unfold uzaklik at hx
    obtain ⟨satir, _, rfl⟩ := List.mem_map.mp hx
    exact hrt _ (kareToplam_nonneg _)

theorem topsisPuanListesi_mem {rt : α → α} (hrt : ∀ y : α, 0 ≤ y → 0 ≤ rt y)
    {mat : List (List α)} {w : List α} {ys : List String} {x : α}
    (hx : x ∈ topsisPuanListesi rt mat w ys) : 0 ≤ x ∧ x ≤ 1 := by
  simp only [topsisPuanListesi] at hx
  obtain ⟨i, _, rfl⟩ := List.mem_map.mp hx
  have h1 := uzaklik_getD_nonneg hrt (topsisAgirlikli rt mat w)
    (idealNokta (topsisAgirlikli rt mat w) ys) i
  have h2 := uzaklik_getD_nonneg hrt (topsisAgirlikli rt mat w)
    (antiNokta (topsisAgirlikli rt mat w) ys) i
  by_cases hz : (uzaklik rt (topsisAgirlikli rt mat w)
      (idealNokta (topsisAgirlikli rt mat w) ys)).getD i 0 +
      (uzaklik rt (topsisAgirlikli rt mat w)
        (antiNokta (topsisAgirlikli rt mat w) ys)).getD i 0 = 0
  · rw [if_pos hz]
    norm_num
  · rw [if_neg hz]
    have hpos : 0 < (uzaklik rt (topsisAgirlikli rt mat w)
        (idealNokta (topsisAgirlikli rt mat w) ys)).getD i 0 +
        (uzaklik rt (topsisAgirlikli rt mat w)
          (antiNokta (topsisAgirlikli rt mat w) ys)).getD i 0 :=
      lt_of_le_of_ne (add_nonneg h1 h2) (Ne.symm hz)
    constructor
    · exact div_nonneg h2 (le_of_lt hpos)
    · rw [div_le_one hpos]
      linarith

theorem topsisPuanListesi_length {rt : α → α} (mat : List (List α))
    (w : List α) (ys : List String) :
    (topsisPuanListesi rt mat w ys).length = mat.length := by
  simp [topsisPuanListesi]

theorem topsisPuanListesi_getD_sifir {rt : α → α} {mat : List (List α)}
    {w : List α} {ys : List String} {i : Nat} (hi : i < mat.length)
    (hdp : (uzaklik rt (topsisAgirlikli rt mat w)
      (idealNokta (topsisAgirlikli rt mat w) ys)).getD i 0 = 0)
    (hdm : (uzaklik rt (topsisAgirlikli rt mat w)
      (antiNokta (topsisAgirlikli rt mat w) ys)).getD i 0 = 0) :
    (topsisPuanListesi rt mat w ys).getD i 0 = 0 := by
  rw [List.getD_eq_getElem?_getD] at hdp hdm
  simp only [topsisPuanListesi]
  rw [List.getD_eq_getElem?_getD, List.getElem?_map, List.getElem?_range hi]
  simp [hdp, hdm]

/-- C4: on any accepted input the TOPSIS output has one score per item,
in the same order and with the same row labels as the decision matrix;
every score lies in [0, 1]; and — as a property of the score computation —
any row whose distances D+ and D- are both 0 receives exactly score 0
(the `np.where(D+ + D- == 0, 0.0, ...)` branch), never 1 and never a
division of 0 by 0. -/
theorem claim_C4 (rt : α → α) (hrt : ∀ y : α, 0 ≤ y → 0 ≤ rt y)
    (karar : KararMatrisi α) (agirliklar : List (String × Fl α))
    (yonler : List (String × String)) (cikti : List (Nat × α))
    (hlen : karar.satirIdx.length = karar.veri.length)
    (hok : topsis_puanlarini_hesapla rt karar agirliklar yonler = .ok cikti) :
    cikti.map Prod.fst = karar.satirIdx
    ∧ (∀ x ∈ cikti.map Prod.snd, 0 ≤ x ∧ x ≤ 1)
    ∧ (∀ (mat : List (List α)) (w : List α) (ys : List String) (i : Nat),
        i < mat.length →
        (uzaklik rt (topsisAgirlikli rt mat w)
          (idealNokta (topsisAgirlikli rt mat w) ys)).getD i 0 = 0 →
        (uzaklik rt (topsisAgirlikli rt mat w)
          (antiNokta (topsisAgirlikli rt mat w) ys)).getD i 0 = 0 →
        (topsisPuanListesi rt mat w ys).getD i 0 = 0) := by
  unfold topsis_puanlarini_hesapla at hok
  split at hok
  next => exact Except.noConfusion hok
  split at hok
  next => exact Except.noConfusion hok
  split at hok
  next => exact Except.noConfusion hok
  next wfl hwfl =>
  split at hok
  next => exact Except.noConfusion hok
  split at hok
  next => exact Except.noConfusion hok
  split at hok
  next => exact Except.noConfusion hok
  next ys hys =>
  split at hok
  next => exact Except.noConfusion hok
  obtain rfl := (Except.ok.inj hok).symm
  have hsl : (topsisPuanListesi rt (karar.veri.map (List.map Fl.deger))
      ((wfl.map Fl.deger).map fun x => x / (wfl.map Fl.deger).sum) ys).length
      = karar.satirIdx.length := by
    rw [topsisPuanListesi_length, List.length_map, ← hlen]
  refine ⟨?_, ?_, ?_⟩
  · exact List.map_fst_zip _ _ (le_of_eq hsl.symm)
  · intro x hx
    rw [List.map_snd_zip _ _ (le_of_eq hsl)] at hx
    exact topsisPuanListesi_mem hrt hx
  · intro mat w2 ys2 i hi hdp hdm
    exact topsisPuanListesi_getD_sifir hi hdp hdm

/-- Witness for C4: a single-row, single-column matrix [[3]] with weight 2
and cost direction; D+ = D- = 0 for the only item, which scores exactly 0. -/
theorem claim_C4_tanik :
    ([((7 : Nat), (0 : ℚ))].map Prod.fst =
        (⟨["puan"], [7], [[Fl.fin 3]]⟩ : KararMatrisi ℚ).satirIdx)
    ∧ (∀ x ∈ [((7 : Nat), (0 : ℚ))].map Prod.snd, 0 ≤ x ∧ x ≤ 1)
    ∧ (∀ (mat : List (List ℚ)) (w : List ℚ) (ys : List String) (i : Nat),
        i < mat.length →
        (uzaklik id (topsisAgirlikli id mat w)
          (idealNokta (topsisAgirlikli id mat w) ys)).getD i 0 = 0 →
        (uzaklik id (topsisAgirlikli id mat w)
          (antiNokta (topsisAgirlikli id mat w) ys)).getD i 0 = 0 →
        (topsisPuanListesi id mat w ys).getD i 0 = 0) :=
  claim_C4 id (fun _ hy => hy) ⟨["puan"], [7], [[Fl.fin 3]]⟩
    [("puan", Fl.fin 2)] [("puan", "maliyet")] [(7, 0)] (by decide) (by rfl)

/-- C3: `topsis_puanlarini_hesapla` returns an error — and hence no score
output — exactly when: the decision matrix is empty (no rows or no
columns); some cell is non-finite; some present column has no weight
(Python raises `KeyError` there), or a negative or non-finite weight; the
weights (all present) sum to ≤ 0; or some present column's direction is
missing or differs from both `fayda` and `maliyet`. -/
theorem claim_C3 (rt : α → α) (karar : KararMatrisi α)
    (agirliklar : List (String × Fl α)) (yonler : List (String × String)) :
    (∃ e, topsis_puanlarini_hesapla rt karar agirliklar yonler = .error e) ↔
      (karar.veri = [] ∨ karar.sutunlar = [])
      ∨ (∃ satir ∈ karar.veri, ∃ x ∈ satir, x.isfinite = false)
      ∨ (∃ s ∈ karar.sutunlar, ara s agirliklar = none)
      ∨ (∃ s ∈ karar.sutunlar, ∃ v, ara s agirliklar = some v ∧
          (v.isfinite = false ∨ v.ltZero = true))
      ∨ ((∀ s ∈ karar.sutunlar, ara s agirliklar ≠ none) ∧
          (karar.sutunlar.map fun s =>
            ((ara s agirliklar).getD (Fl.fin 0)).deger).sum ≤ 0)
      ∨ (∃ s ∈ karar.sutunlar, ara s yonler ≠ some "fayda"
          ∧ ara s yonler ≠ some "maliyet") := by
  unfold topsis_puanlarini_hesapla
  by_cases h1 : karar.veri = [] ∨ karar.sutunlar = []
  · rw [if_pos h1]
    exact iff_of_true ⟨_, rfl⟩ (Or.inl h1)
  rw [if_neg h1]
  by_cases h2 : (karar.veri.all fun satir => satir.all Fl.isfinite) = false
  · rw [if_pos (by simp [h2])]
    refine iff_of_true ⟨_, rfl⟩ (Or.inr (Or.inl ?_))
    rw [List.all_eq_false] at h2
    obtain ⟨satir, hs, hsf⟩ := h2
    rw [Bool.not_eq_true, List.all_eq_false] at hsf
    obtain ⟨x, hx, hxf⟩ := hsf
    exact ⟨satir, hs, x, hx, by simpa using hxf⟩
  have h2t : (karar.veri.all fun satir => satir.all Fl.isfinite) = true := by
    cases hb : (karar.veri.all fun satir => satir.all Fl.isfinite) with
    | false => exact absurd hb h2
    | true => rfl
  rw [if_neg (by simp [h2t])]
  have hD2 : ¬ (∃ satir ∈ karar.veri, ∃ x ∈ satir, x.isfinite = false) := by
    rw [List.all_eq_true] at h2t
    rintro ⟨satir, hs, x, hx, hxf⟩
    have hall := h2t satir hs
    rw [List.all_eq_true] at hall
    have := hall x hx
    rw [hxf] at this
    exact Bool.noConfusion this
  cases h3 : hepsiniBul karar.sutunlar agirliklar with
  | none =>
    exact iff_of_true ⟨_, rfl⟩
      (Or.inr (Or.inr (Or.inl (hepsiniBul_none_iff.mp h3))))
  | some wfl =>
    dsimp only
    have hD3 : ¬ (∃ s ∈ karar.sutunlar, ara s agirliklar = none) := by
      intro hc
      rw [← hepsiniBul_none_iff, h3] at hc
      exact Option.noConfusion hc
    have hwfl : wfl = karar.sutunlar.map fun s => (ara s agirliklar).getD (Fl.fin 0) :=
      (hepsiniBul_some (Fl.fin 0) h3).1
    have hsum_eq : (wfl.map Fl.deger).sum =
        (karar.sutunlar.map fun s =>
          ((ara s agirliklar).getD (Fl.fin 0)).deger).sum := by
      rw [hwfl, List.map_map]
      rfl
    by_cases h4 : ((wfl.any Fl.ltZero) || !(wfl.all Fl.isfinite)) = true
    · rw [if_pos h4]
      refine iff_of_true ⟨_, rfl⟩ (Or.inr (Or.inr (Or.inr (Or.inl ?_))))
      rw [Bool.or_eq_true, List.any_eq_true, Bool.not_eq_true',
        List.all_eq_false] at h4
      rcases h4 with ⟨v, hv, hvb⟩ | ⟨v, hv, hvb⟩
      · rw [hwfl] at hv
        obtain ⟨s, hs, rfl⟩ := List.mem_map.mp hv
        obtain ⟨u, hu⟩ := Option.ne_none_iff_exists'.mp
          (fun hn => hD3 ⟨s, hs, hn⟩)
        refine ⟨s, hs, u, hu, Or.inr ?_⟩
        rw [hu] at hvb
        simpa using hvb
      · rw [hwfl] at hv
        obtain ⟨s, hs, rfl⟩ := List.mem_map.mp hv
        obtain ⟨u, hu⟩ := Option.ne_none_iff_exists'.mp
          (fun hn => hD3 ⟨s, hs, hn⟩)
        refine ⟨s, hs, u, hu, Or.inl ?_⟩
        rw [hu] at hvb
        simpa using hvb
    · rw [if_neg h4]
      have hD4 : ¬ (∃ s ∈ karar.sutunlar, ∃ v, ara s agirliklar = some v ∧
          (v.isfinite = false ∨ v.ltZero = true)) := by
        rintro ⟨s, hs, v, hv, hb⟩
        apply h4
        rw [Bool.or_eq_true, List.any_eq_true, Bool.not_eq_true',
          List.all_eq_false]
        have hvm : v ∈ wfl := by
          rw [hwfl]
          refine List.mem_map.mpr ⟨s, hs, ?_⟩
          rw [hv]
          rfl
        rcases hb with hb | hb
        · exact Or.inr ⟨v, hvm, by simp [hb]⟩
        · exact Or.inl ⟨v, hvm, hb⟩
      by_cases h5 : (wfl.map Fl.deger).sum ≤ 0
      · rw [if_pos h5]
        refine iff_of_true ⟨_, rfl⟩
          (Or.inr (Or.inr (Or.inr (Or.inr (Or.inl ⟨?_, ?_⟩)))))
        · intro s hs hn
          exact hD3 ⟨s, hs, hn⟩
        · rw [← hsum_eq]
          exact h5
      · rw [if_neg h5]
        have hD5 : ¬ ((∀ s ∈ karar.sutunlar, ara s agirliklar ≠ none) ∧
            (karar.sutunlar.map fun s =>
              ((ara s agirliklar).getD (Fl.fin 0)).deger).sum ≤ 0) := by
          rintro ⟨-, hsum⟩
          rw [← hsum_eq] at hsum
          exact h5 hsum
        cases h6 : hepsiniBul karar.sutunlar yonler with
        | none =>
          refine iff_of_true ⟨_, rfl⟩
            (Or.inr (Or.inr (Or.inr (Or.inr (Or.inr ?_)))))
          obtain ⟨s, hs, hn⟩ := hepsiniBul_none_iff.mp h6
          refine ⟨s, hs, ?_, ?_⟩
          · rw [hn]
            exact fun hcon => Option.noConfusion hcon
          · rw [hn]
            exact fun hcon => Option.noConfusion hcon
        | some ys =>
          dsimp only
          have hys : ys = karar.sutunlar.map fun s => (ara s yonler).getD "" :=
            (hepsiniBul_some "" h6).1
          have hD6n : ∀ s ∈ karar.sutunlar, ara s yonler ≠ none :=
            (hepsiniBul_some "" h6).2
          by_cases h7 : (ys.any fun y => !(y = "fayda" || y = "maliyet")) = true
          · rw [if_pos h7]
            refine iff_of_true ⟨_, rfl⟩
              (Or.inr (Or.inr (Or.inr (Or.inr (Or.inr ?_)))))
            rw [List.any_eq_true] at h7
            obtain ⟨y, hy, hyb⟩ := h7
            rw [hys] at hy
            obtain ⟨s, hs, rfl⟩ := List.mem_map.mp hy
            obtain ⟨d, hd⟩ := Option.ne_none_iff_exists'.mp (hD6n s hs)
            rw [hd] at hyb
            simp only [Option.getD_some, Bool.not_eq_true',
              Bool.or_eq_false_iff, decide_eq_false_iff_not] at hyb
            refine ⟨s, hs, ?_, ?_⟩
            · rw [hd]
              intro hcon
              exact hyb.1 (Option.some.inj hcon)
            · rw [hd]
              intro hcon
              exact hyb.2 (Option.some.inj hcon)
          · rw [if_neg h7]
            have hD6 : ¬ (∃ s ∈ karar.sutunlar, ara s yonler ≠ some "fayda"
                ∧ ara s yonler ≠ some "maliyet") := by
              rintro ⟨s, hs, hf, hm⟩
              obtain ⟨d, hd⟩ := Option.ne_none_iff_exists'.mp (hD6n s hs)
              have hdm : d ∈ ys := by
                rw [hys]
                refine List.mem_map.mpr ⟨s, hs, ?_⟩
                rw [hd]
                rfl
              apply h7
              rw [List.any_eq_true]
              refine ⟨d, hdm, ?_⟩
              simp only [Bool.not_eq_true', Bool.or_eq_false_iff,
                decide_eq_false_iff_not]
              constructor
              · intro hcon
                exact hf (by rw [hd, hcon])
              · intro hcon
                exact hm (by rw [hd, hcon])
            refine iff_of_false ?_ ?_
            · rintro ⟨e, he⟩
              exact Except.noConfusion he
            · rintro (hD | hD | hD | hD | hD | hD)
              · exact h1 hD
              · exact hD2 hD
              · exact hD3 hD
              · exact hD4 hD
              · exact hD5 hD
              · exact hD6 hD

end AyberkProje
